import Mathlib

/-!
Verification of the AP2 sample-agent protocol code.

The Python sources under src/samples/python/src are shallowly embedded below:
pure functions become Lean functions, the in-memory stores become explicit
state values that are threaded through the operations, raised exceptions
become Except values, and the effectful TaskUpdater / remote A2A calls are
embedded as an explicit list of emitted updater events, so that the task
transition performed by a handler is the fold of its event list over the
incoming task.
-/

namespace AP2

/-! ## Decimal representation

The credentials provider derives token names from the token-table size with
a Python f-string, i.e. the decimal representation of a natural number.  In
Lean that is Nat.repr.  Freshness of token names requires injectivity of
Nat.repr, which we prove here via Mathlib's Nat.digits.
-/

/-- decRep n is the decimal digit-character list of n, most significant digit
first, as produced by Nat.toDigitsCore with sufficient fuel. -/
def decRep (n : Nat) : List Char :=
  if n = 0 then ['0'] else ((Nat.digits 10 n).map Nat.digitChar).reverse

theorem decRep_step (n : Nat) (h10 : n / 10 ≠ 0) :
    decRep n = decRep (n / 10) ++ [Nat.digitChar (n % 10)] := by
  have hn : n ≠ 0 := by
    intro h; exact h10 (by simp [h])
  have hge : 10 ≤ n := by
    by_contra hlt
    exact h10 (Nat.div_eq_of_lt (by omega : n < 10))
  rw [decRep, if_neg hn, Nat.digits_def' (by norm_num : (1:ℕ) < 10) (Nat.pos_of_ne_zero hn)]
  rw [decRep, if_neg h10]
  simp

theorem decRep_small (n : Nat) (h0 : n ≠ 0) (hlt : n < 10) :
    decRep n = [Nat.digitChar n] := by
  rw [decRep, if_neg h0, Nat.digits_def' (by norm_num : (1:ℕ) < 10) (Nat.pos_of_ne_zero h0)]
  rw [Nat.mod_eq_of_lt hlt, Nat.div_eq_of_lt hlt]
  simp

theorem toDigitsCore_eq_decRep :
    ∀ (f n : Nat) (l : List Char), n < f →
      Nat.toDigitsCore 10 f n l = decRep n ++ l := by
  intro f
  induction f with
  | zero => intro n l h; omega
  | succ f ih =>
    intro n l h
    show (if n / 10 = 0 then Nat.digitChar (n % 10) :: l
          else Nat.toDigitsCore 10 f (n / 10) (Nat.digitChar (n % 10) :: l)) = decRep n ++ l
    by_cases h10 : n / 10 = 0
    · rw [if_pos h10]
      have hlt : n < 10 := by
        by_contra hge
        have : 10 * 1 ≤ n := by omega
        have := Nat.le_div_iff_mul_le (by omega : 0 < 10) |>.mpr (by omega : 1 * 10 ≤ n)
        omega
      by_cases h0 : n = 0
      · subst h0; rfl
      · rw [decRep_small n h0 hlt, Nat.mod_eq_of_lt hlt]
        rfl
    · rw [if_neg h10]
      have hpos : 0 < n := by
        rcases Nat.eq_zero_or_pos n with h0 | h0
        · exact absurd (by simp [h0]) h10
        · exact h0
      have hdiv : n / 10 < n := Nat.div_lt_self hpos (by norm_num)
      rw [ih (n / 10) (Nat.digitChar (n % 10) :: l) (by omega)]
      rw [decRep_step n h10]
      simp

/-- digitChar is injective on digits below ten. -/
theorem digitChar_injOn :
    ∀ d < 10, ∀ e < 10, Nat.digitChar d = Nat.digitChar e → d = e := by decide

theorem map_digitChar_inj :
    ∀ l1 l2 : List Nat, (∀ d ∈ l1, d < 10) → (∀ d ∈ l2, d < 10) →
      l1.map Nat.digitChar = l2.map Nat.digitChar → l1 = l2 := by
  intro l1
  induction l1 with
  | nil => intro l2 _ _ h; cases l2 <;> simp_all
  | cons a l1 ih =>
    intro l2 h1 h2 h
    cases l2 with
    | nil => simp_all
    | cons b l2 =>
      simp only [List.map_cons, List.cons.injEq] at h
      have ha : a = b :=
        digitChar_injOn a (h1 a (by simp)) b (h2 b (by simp)) h.1
      have hl : l1 = l2 :=
        ih l2 (fun d hd => h1 d (by simp [hd])) (fun d hd => h2 d (by simp [hd])) h.2
      rw [ha, hl]

theorem decRep_injective : Function.Injective decRep := by
  intro m n h
  have key : ∀ k : Nat, k ≠ 0 → decRep k ≠ ['0'] := by
    intro k hk hcon
    rw [decRep, if_neg hk] at hcon
    have hmap : (Nat.digits 10 k).map Nat.digitChar = ['0'] := by
      have := congrArg List.reverse hcon
      simpa using this
    have hdig : Nat.digits 10 k = [0] := by
      apply map_digitChar_inj
      · intro d hd; exact Nat.digits_lt_base (by norm_num) hd
      · intro d hd; simp at hd; omega
      · simpa using hmap
    have : k = 0 := by
      have h1 := Nat.ofDigits_digits 10 k
      rw [hdig] at h1
      simpa [Nat.ofDigits] using h1.symm
    exact hk this
  by_cases hm : m = 0 <;> by_cases hn : n = 0
  · omega
  · subst hm
    exact absurd h.symm (key n hn)
  · subst hn
    exact absurd h (key m hm)
  · rw [decRep, if_neg hm, decRep, if_neg hn] at h
    have hmap : (Nat.digits 10 m).map Nat.digitChar = (Nat.digits 10 n).map Nat.digitChar := by
      have := congrArg List.reverse h
      simpa using this
    have hdig : Nat.digits 10 m = Nat.digits 10 n := by
      apply map_digitChar_inj
      · intro d hd; exact Nat.digits_lt_base (by norm_num) hd
      · intro d hd; exact Nat.digits_lt_base (by norm_num) hd
      · exact hmap
    exact Nat.digits_inj_iff.mp hdig

theorem natRepr_eq_decRep (n : Nat) : Nat.repr n = (decRep n).asString := by
  show (Nat.toDigits 10 n).asString = (decRep n).asString
  rw [Nat.toDigits, toDigitsCore_eq_decRep (n + 1) n [] (by omega)]
  simp

theorem natRepr_injective : Function.Injective Nat.repr := by
  intro m n h
  rw [natRepr_eq_decRep, natRepr_eq_decRep] at h
  have hdata : decRep m = decRep n := by
    have := congrArg String.data h
    simpa [List.asString] using this
  exact decRep_injective hdata

/-! ## Credentials provider: account manager

Embedding of src/samples/python/src/roles/credentials_provider_agent/account_manager.py.
The module-level dict _token is embedded as an association list threaded
through the operations; Python dict semantics are mirrored: get returns the
entry of the first (unique) matching key, assignment replaces the value of an
existing key in place and appends a fresh key at the end.  The raised
ValueError exceptions become an explicit error type distinguishing the two
distinct error messages used by the source.
-/

/-- One payment method of _account_db.  The demo payload fields (numbers,
cryptograms, billing addresses, brands) are carried verbatim-irrelevantly by
the operations, which only ever read the alias; we keep the method type and
alias and drop the rest of the demo payload, which no embedded operation
reads. -/
structure PaymentMethod where
  pmType : String
  pmAlias : String
deriving Repr, DecidableEq

/-- Embedding of the module-level _account_db sample data: account email to
payment methods (in dict insertion order). -/
def accountDb : List (String × List PaymentMethod) :=
  [("taro.yamada@gmail.com",
      [⟨"CARD", "Visa（末尾 1234）"⟩,
       ⟨"CARD", "Mastercard（末尾 5678）"⟩,
       ⟨"DIGITAL_WALLET", "山田さんのPayPal"⟩,
       ⟨"DIGITAL_WALLET", "LINE Payアカウント"⟩]),
   ("hanako.suzuki@example.com",
      [⟨"CARD", "JCB（末尾 9012）"⟩,
       ⟨"DIGITAL_WALLET", "楽天ペイ"⟩]),
   ("kenji.tanaka@example.com",
      [⟨"BANK_ACCOUNT", "メイン普通預金口座"⟩])]

/-- Association-list lookup with Python dict.get semantics (first match). -/
def alistGet {α : Type} (l : List (String × α)) (k : String) : Option α :=
  match l with
  | [] => none
  | (k', v) :: rest => if k' = k then some v else alistGet rest k

/-- Association-list assignment with Python dict d[k] = v semantics: replace
the value of an existing key, else append the new binding. -/
def alistSet {α : Type} (l : List (String × α)) (k : String) (v : α) :
    List (String × α) :=
  match l with
  | [] => [(k, v)]
  | (k', v') :: rest =>
      if k' = k then (k, v) :: rest else (k', v') :: alistSet rest k v

/-- Embedding of get_account_payment_methods. -/
def get_account_payment_methods (email_address : String) : List PaymentMethod :=
  (alistGet accountDb email_address).getD []

/-- Embedding of Python str.casefold, which on every string appearing in this
data agrees with character-wise lowercasing. -/
def casefold (s : String) : String := s.map Char.toLower

/-- Embedding of get_payment_method_by_alias. -/
def get_payment_method_by_alias (email_address : String) (a : String) :
    Option PaymentMethod :=
  match (get_account_payment_methods email_address).filter
      (fun pm => casefold pm.pmAlias = casefold a) with
  | [] => none
  | pm :: _ => some pm

/-- One value of the _token table: the record stored by create_token. -/
structure TokenRecord where
  emailAddress : String
  paymentMethodAlias : String
  paymentMandateId : Option String
deriving Repr, DecidableEq

/-- The module-level _token dict, threaded explicitly. -/
abbrev TokenTable := List (String × TokenRecord)

/-- The two distinct ValueError messages raised by the account manager:
"Token ... not found" from update_token and "Invalid token" from
verify_token. -/
inductive AmError where
  | tokenNotFound (token : String)
  | invalidToken
deriving Repr, DecidableEq

/-- Python truthiness of the stored payment_mandate_id (None or str): truthy
iff present and non-empty. -/
def truthyOptStr : Option String → Bool
  | none => false
  | some s => s ≠ ""

/-- tokenName n is the token string built by create_token from the current
size n of the token table, via the Python f-string with the decimal
representation of n. -/
def tokenName (n : Nat) : String :=
  "fake_payment_credential_token_" ++ Nat.repr n

/-- Embedding of create_token: the token name is derived from the current
table size, the record starts with payment_mandate_id None, and the pair of
the returned token and the updated table is given back. -/

def create_token (tbl : TokenTable) (email_address payment_method_alias : String) :
    String × TokenTable :=
  let token := tokenName tbl.length
  (token, alistSet tbl token
    { emailAddress := email_address
      paymentMethodAlias := payment_method_alias
      paymentMandateId := none })

/-- Embedding of update_token: unknown tokens raise, an already-truthy
payment_mandate_id is not overwritten (the source checks Python truthiness,
so None and the empty string both count as unset), otherwise the id is
stored. -/
def update_token (tbl : TokenTable) (token payment_mandate_id : String) :
    Except AmError TokenTable :=
  match alistGet tbl token with
  | none => .error (.tokenNotFound token)
  | some r =>
      if truthyOptStr r.paymentMandateId then .ok tbl
      else .ok (alistSet tbl token { r with paymentMandateId := some payment_mandate_id })

/-- Embedding of verify_token: unknown token or a stored payment_mandate_id
different from the supplied one raise ValueError("Invalid token"); otherwise
the bound account and alias are resolved to a payment method. -/
def verify_token (tbl : TokenTable) (token payment_mandate_id : String) :
    Except AmError (Option PaymentMethod) :=
  match alistGet tbl token with
  | none => .error .invalidToken
  | some r =>
      if r.paymentMandateId ≠ some payment_mandate_id then .error .invalidToken
      else .ok (get_payment_method_by_alias r.emailAddress r.paymentMethodAlias)

/-! ### Account-manager traces

The state-changing operations of the account manager, run from the empty
initial _token table.  A failed update_token raises before any mutation, so
it leaves the table unchanged. -/

/-- One state-changing call to the account manager. -/
inductive AmOp where
  | create (email_address payment_method_alias : String)
  | update (token payment_mandate_id : String)
deriving Repr, DecidableEq

/-- amStep applies one call to the table; an update that raises leaves the
table unchanged (the source raises before assigning). -/
def amStep (tbl : TokenTable) : AmOp → TokenTable
  | .create e a => (create_token tbl e a).2
  | .update t p =>
      match update_token tbl t p with
      | .ok tbl' => tbl'
      | .error _ => tbl

/-- runOps runs a call sequence from the empty initial table. -/
def runOps (ops : List AmOp) : TokenTable := ops.foldl amStep []

/-- amStepAcc is amStep paired with the accumulation of the tokens returned
by the create_token calls. -/
def amStepAcc (acc : TokenTable × List String) (op : AmOp) : TokenTable × List String :=
  match op with
  | .create e a =>
      let p := create_token acc.1 e a
      (p.2, acc.2 ++ [p.1])
  | .update t pm => (amStep acc.1 (.update t pm), acc.2)

/-- createdTokens collects, in order, the tokens returned by the create_token
calls of a call sequence run from the empty table. -/
def createdTokens (ops : List AmOp) : List String :=
  (ops.foldl amStepAcc ([], [])).2

/-- boundIdOf reads the payment mandate id currently stored for a token. -/
def boundIdOf (tbl : TokenTable) (token : String) : Option String :=
  (alistGet tbl token).bind (fun r => r.paymentMandateId)

/-- keysOf lists the keys of an association list in order. -/
def keysOf {α : Type} (l : List (String × α)) : List String := l.map Prod.fst

/-! ## Mandate and payment-request model

Modelled from the spec: the ap2.types package (mandate.py, payment_request.py,
payment_receipt.py, contact_picker.py) is not part of the source tree; the
structures below follow spec section 3 and the field accesses made by the
embedded role code.  Amount values are integers, as in the catalog and
update_cart code (JPY amounts 400, 350, 0).
-/

structure PaymentCurrencyAmount where
  currency : String
  value : Int
deriving Repr, DecidableEq

structure PaymentItem where
  label : String
  amount : PaymentCurrencyAmount
deriving Repr, DecidableEq

structure PaymentMethodData where
  supportedMethods : String
  networks : List String
deriving Repr, DecidableEq

structure PaymentDetailsInit where
  id : String
  displayItems : Option (List PaymentItem)
  total : PaymentItem
deriving Repr, DecidableEq

structure PaymentOptions where
  requestShipping : Bool
deriving Repr, DecidableEq

/-- Modelled from the spec: a shipping address; the embedded operations never
read its fields, they only validate and store it. -/
structure ContactAddress where
  recipient : Option String
  organization : Option String
  addressLine : List String
  city : Option String
  region : Option String
  postalCode : Option String
  country : Option String
  phoneNumber : Option String
deriving Repr, DecidableEq

structure PaymentRequest where
  methodData : List PaymentMethodData
  details : PaymentDetailsInit
  options : PaymentOptions
  shippingAddress : Option ContactAddress
deriving Repr, DecidableEq

structure CartContents where
  id : String
  userCartConfirmationRequired : Bool
  paymentRequest : PaymentRequest
  cartExpiry : String
  merchantName : String
deriving Repr, DecidableEq

structure CartMandate where
  contents : CartContents
  merchantAuthorization : Option String
deriving Repr, DecidableEq

/-- Modelled from the spec: payment_response.details carries a token object
with the credentials provider url; the processor reads method_name and the
token url. -/
structure PaymentResponse where
  methodName : String
  tokenUrl : String
deriving Repr, DecidableEq

structure PaymentMandateContents where
  paymentMandateId : String
  paymentDetailsTotal : PaymentItem
  paymentResponse : PaymentResponse
deriving Repr, DecidableEq

structure PaymentMandate where
  paymentMandateContents : PaymentMandateContents
deriving Repr, DecidableEq

/-- Modelled from the spec: a PaymentReceipt status is success with the two
confirmation ids, or failure. -/
inductive PaymentStatus where
  | success (merchantConfirmationId pspConfirmationId : String)
  | failure
deriving Repr, DecidableEq

structure PaymentReceipt where
  paymentMandateId : String
  timestamp : String
  paymentId : String
  amount : PaymentCurrencyAmount
  paymentStatus : PaymentStatus
  methodDetailsMethodName : String
deriving Repr, DecidableEq

/-- The structured challenge descriptor raised by the payment processor, a
dict with the fields type and display_text. -/
structure ChallengeDescriptor where
  type : String
  displayText : String
deriving Repr, DecidableEq

/-! ## Message-envelope model

A data part of an A2A message is a single-key dict tagging a typed payload
with its canonical key.  The Python payloads are JSON dicts; here they are
embedded as the typed objects they decode to, plus plain strings, so that
pydantic model_validate becomes a constructor match.
-/

/-- Typed payload of a data part. -/
inductive DataVal where
  | str (s : String)
  | addr (a : ContactAddress)
  | cart (c : CartMandate)
  | mandate (m : PaymentMandate)
  | receipt (r : PaymentReceipt)
  | challenge (c : ChallengeDescriptor)
deriving Repr, DecidableEq

/-- Python truthiness of a payload: an empty string is falsy, every decoded
object is a non-empty dict and hence truthy. -/
def truthyVal : DataVal → Bool
  | .str s => s ≠ ""
  | _ => true

/-- Python truthiness of an optional payload (None is falsy). -/
def truthyOptVal : Option DataVal → Bool
  | none => false
  | some v => truthyVal v

/-- Modelled from the spec: message_utils.find_data_part (src/common is not in
the source tree) returns the first data part tagged with the key, or a
not-found signal, and does not fail. -/
def find_data_part (key : String) (dataParts : List (String × DataVal)) :
    Option DataVal :=
  alistGet dataParts key

/-- Modelled from the spec: the canonical data-part keys are stable
well-known strings; their exact literal is not in the source tree, only
their distinctness and stability matter here. -/
def PAYMENT_MANDATE_DATA_KEY : String := "ap2.mandates.PaymentMandate"

/-- Modelled from the spec: canonical key of CartMandate payloads. -/
def CART_MANDATE_DATA_KEY : String := "ap2.mandates.CartMandate"

/-- Modelled from the spec: canonical key of PaymentReceipt payloads. -/
def PAYMENT_RECEIPT_DATA_KEY : String := "ap2.mandates.PaymentReceipt"

/-- One part of an agent message: a text part or a tagged data part. -/
inductive MsgPart where
  | text (s : String)
  | data (key : String) (v : DataVal)
deriving Repr, DecidableEq

/-! ## Task model

The a2a Task as the embedded handlers observe it: an id, a context id, a
status made of a state and an optional message, artifacts, and the message
history.  History messages are reduced to the one field the embedded code
reads, their task_id (optional in the a2a Message type).
-/

inductive TaskState where
  | submitted
  | working
  | inputRequired
  | completed
  | failed
deriving Repr, DecidableEq

structure HistoryMessage where
  taskId : Option String
deriving Repr, DecidableEq

structure TaskStatus where
  state : TaskState
  message : Option (List MsgPart)
deriving Repr, DecidableEq

structure Task where
  id : String
  contextId : String
  status : TaskStatus
  artifacts : List (List MsgPart)
  history : List HistoryMessage
deriving Repr, DecidableEq

/-! ## TaskUpdater effects

The a2a TaskUpdater and the remote A2A client are external to the embedded
handlers; a handler run is embedded as the list of effects it emits, in
order.  requiresInput, complete and failed are the status updates of the
TaskUpdater, addArtifact attaches an artifact, and requestCredential /
sendReceipt are the two outbound remote calls the processor makes to the
credentials provider (both assumed to succeed; their task results are
environmental inputs).
-/

inductive UEvent where
  | requiresInput (message : List MsgPart)
  | complete (message : Option (List MsgPart))
  | failed (message : List MsgPart)
  | addArtifact (parts : List MsgPart)
  | requestCredential (m : PaymentMandate)
  | sendReceipt (r : PaymentReceipt)
deriving Repr, DecidableEq

/-- applyEvent folds one updater effect into the task: status updates
replace the status, addArtifact appends, remote calls leave the task
unchanged. -/
def applyEvent (t : Task) : UEvent → Task
  | .requiresInput m =>
      { t with status := { state := .inputRequired, message := some m } }
  | .complete m => { t with status := { state := .completed, message := m } }
  | .failed m => { t with status := { state := .failed, message := some m } }
  | .addArtifact parts => { t with artifacts := t.artifacts ++ [parts] }
  | .requestCredential _ => t
  | .sendReceipt _ => t

/-- applyEvents is the task reached after a handler's event list. -/
def applyEvents (t : Task) (evs : List UEvent) : Task :=
  evs.foldl applyEvent t

/-- isAddArtifactE selects artifact-attaching events. -/
def isAddArtifactE : UEvent → Bool
  | .addArtifact _ => true
  | _ => false

/-- isRequestCredentialE selects the outbound credential request. -/
def isRequestCredentialE : UEvent → Bool
  | .requestCredential _ => true
  | _ => false

/-! ## Merchant payment processor

Embedding of src/samples/python/src/roles/merchant_payment_processor_agent/tools.py.
The nondeterministic environment of _create_payment_receipt (uuid4 and the
current utc time) is passed in as a PayEnv value.
-/

structure PayEnv where
  paymentId : String
  timestamp : String
deriving Repr, DecidableEq

/-- The OTP challenge descriptor raised by _raise_challenge. -/
def challengeData : ChallengeDescriptor :=
  { type := "otp"
    displayText :=
      "支払い方法の発行者が、登録されている電話番号宛てに認証コードを送信しました。取引を承認するため、コードを発行者と共有する必要がありますので、以下に入力してください。（デモ用ヒント：コードは 123 です）" }

/-- Embedding of _raise_challenge: one requires_input status update whose
message carries a text part and the challenge data part. -/
def raise_challenge : List UEvent :=
  [.requiresInput
    [.text "Please provide the challenge response to complete the payment.",
     .data "challenge" (.challenge challengeData)]]

/-- Embedding of _challenge_response_is_valid. -/
def challenge_response_is_valid (challenge_response : String) : Bool :=
  challenge_response == "123"

/-- Embedding of _create_payment_receipt. -/
def create_payment_receipt (env : PayEnv) (m : PaymentMandate) : PaymentReceipt :=
  { paymentMandateId := m.paymentMandateContents.paymentMandateId
    timestamp := env.timestamp
    paymentId := env.paymentId
    amount := m.paymentMandateContents.paymentDetailsTotal.amount
    paymentStatus := .success env.paymentId env.paymentId
    methodDetailsMethodName := m.paymentMandateContents.paymentResponse.methodName }

/-- Embedding of _complete_payment: request the credential from the
credentials provider, send it the receipt, attach the receipt artifact and
complete with the success message. -/
def complete_payment (env : PayEnv) (m : PaymentMandate) : List UEvent :=
  [.requestCredential m,
   .sendReceipt (create_payment_receipt env m),
   .addArtifact [.data PAYMENT_RECEIPT_DATA_KEY (.receipt (create_payment_receipt env m))],
   .complete (some [.text "\x7b\x27status\x27: \x27success\x27\x7d"])]

/-- Embedding of _check_challenge_response_and_complete_payment. -/
def check_challenge_response_and_complete_payment (env : PayEnv)
    (m : PaymentMandate) (challenge_response : String) : List UEvent :=
  if challenge_response_is_valid challenge_response then complete_payment env m
  else [.requiresInput [.text "Challenge response incorrect."]]

/-- Embedding of _handle_payment_mandate: no task raises the challenge, a
task in input_required checks the response, any other task state returns
with no effect. -/
def handle_payment_mandate (env : PayEnv) (m : PaymentMandate)
    (challenge_response : String) (current_task : Option Task) : List UEvent :=
  match current_task with
  | none => raise_challenge
  | some task =>
      if task.status.state = TaskState.inputRequired then
        check_challenge_response_and_complete_payment env m challenge_response
      else []

/-- challenge_response_of embeds find_data_part("challenge_response", ...)
or "": a present non-empty string is kept, an absent or falsy value becomes
"".  A truthy non-string payload would also fail the == "123" check in the
source and is mapped to "" here, observably the same. -/
def challenge_response_of (dataParts : List (String × DataVal)) : String :=
  match find_data_part "challenge_response" dataParts with
  | some (.str s) => s
  | _ => ""

/-- Embedding of the processor's initiate_payment.  A missing or falsy
payment_mandate data part fails the task; a payload that is not a
PaymentMandate makes model_validate raise out of the handler, embedded as
none. -/
def initiate_payment (env : PayEnv) (dataParts : List (String × DataVal))
    (current_task : Option Task) : Option (List UEvent) :=
  let payment_mandate := find_data_part PAYMENT_MANDATE_DATA_KEY dataParts
  if ¬ truthyOptVal payment_mandate then
    some [.failed [.text "Missing payment_mandate."]]
  else
    match payment_mandate with
    | some (.mandate m) =>
        some (handle_payment_mandate env m (challenge_response_of dataParts) current_task)
    | _ => none

/-! ## Merchant agent

Embedding of src/samples/python/src/roles/merchant_agent/tools.py
(update_cart, _get_payment_processor_task_id, _fail_task) and of the cart
construction of sub_agents/catalog_agent.py.  The merchant storage module is
not in the source tree; modelled from the spec as a pair of key-value
stores for cart mandates and risk data.
-/

/-- Modelled from the spec: the merchant's global in-memory stores, a cart
table keyed by cart id and a risk-data table keyed by context id. -/
structure MerchantStore where
  carts : List (String × CartMandate)
  risk : List (String × String)
deriving Repr, DecidableEq

/-- The placeholder merchant authorization JWT of tools.py. -/
def FAKE_JWT : String := "eyJhbGciOiJSUzI1NiIsImtpZIwMjQwOTA..."

/-- Embedding of storage.get_cart_mandate applied to the raw cart_id value;
only string cart ids occur in the protocol, any other payload finds
nothing. -/
def get_cart_mandate (store : MerchantStore) (v : Option DataVal) :
    Option CartMandate :=
  match v with
  | some (.str s) => alistGet store.carts s
  | _ => none

/-- Embedding of storage.get_risk_data. -/
def get_risk_data (store : MerchantStore) (contextId : String) : Option String :=
  alistGet store.risk contextId

/-- Embedding of ContactAddress.model_validate in the typed-payload model: an
address payload validates to itself, anything else raises ValidationError,
embedded as none. -/
def contact_address_model_validate : DataVal → Option ContactAddress
  | .addr a => some a
  | _ => none

/-- Embedding of _fail_task: one failed status update carrying the error
text. -/
def fail_task (error_text : String) : UEvent :=
  .failed [.text error_text]

/-- showCartIdVal renders the raw cart_id value into the not-found message,
as the Python f-string does for the string ids the protocol uses. -/
def showCartIdVal : Option DataVal → String
  | some (.str s) => s
  | _ => ""

/-- The Shipping line item appended by update_cart. -/
def shippingItem : PaymentItem :=
  { label := "Shipping", amount := { currency := "JPY", value := 400 } }

/-- The Tax line item appended by update_cart. -/
def taxItem : PaymentItem :=
  { label := "Tax", amount := { currency := "JPY", value := 350 } }

/-- update_cart_mandate is the in-place mutation update_cart performs on the
stored CartMandate: attach the shipping address, append the Shipping and Tax
display items, recompute the total as the sum over all display items, and
sign with the placeholder JWT. -/
def update_cart_mandate (cm : CartMandate) (addr : ContactAddress) : CartMandate :=
  let items :=
    match cm.contents.paymentRequest.details.displayItems with
    | none => [shippingItem, taxItem]
    | some l => l ++ [shippingItem, taxItem]
  let newTotalValue := (items.map (fun it => it.amount.value)).sum
  { cm with
    contents := { cm.contents with
      paymentRequest := { cm.contents.paymentRequest with
        shippingAddress := some addr
        details := { cm.contents.paymentRequest.details with
          displayItems := some items
          total := { cm.contents.paymentRequest.details.total with
            amount := { cm.contents.paymentRequest.details.total.amount with
              value := newTotalValue } } } } }
    merchantAuthorization := some FAKE_JWT }

/-- Embedding of the merchant's update_cart: the four precondition checks in
source order, then the cart update, the artifact with the updated cart and
the risk data, and completion.  A payload failing address validation is the
caught ValidationError branch; the human-readable pydantic rendering of the
error is presentation and not modelled. -/
def update_cart (dataParts : List (String × DataVal)) (contextId : String)
    (store : MerchantStore) : List UEvent :=
  let cart_id := find_data_part "cart_id" dataParts
  if ¬ truthyOptVal cart_id then [fail_task "Missing cart_id."]
  else
    let shipping_address := find_data_part "shipping_address" dataParts
    if ¬ truthyOptVal shipping_address then [fail_task "Missing shipping_address."]
    else
      match get_cart_mandate store cart_id with
      | none => [fail_task ("CartMandate not found for cart_id: " ++ showCartIdVal cart_id)]
      | some cart_mandate =>
        match get_risk_data store contextId with
        | none => [fail_task ("Missing risk_data for context_id: " ++ contextId)]
        | some risk_data =>
          match contact_address_model_validate ((shipping_address).getD (.str "")) with
          | none => [fail_task "Invalid CartMandate after update: ValidationError"]
          | some addr =>
            let cm := update_cart_mandate cart_mandate addr
            [.addArtifact [.data CART_MANDATE_DATA_KEY (.cart cm),
                           .data "risk_data" (.str risk_data)],
             .complete none]

/-- Embedding of _get_merchant_name_for_item: the merchant_map dict get with
default A社. -/
def merchant_name_for_item (item_count : Nat) : String :=
  if item_count = 1 then "A社"
  else if item_count = 2 then "B社"
  else if item_count = 3 then "C社"
  else "A社"

/-- Embedding of the CartMandate construction of
_create_and_add_cart_mandate_artifact: the main item plus the zero-amount
feature item, the total being the main item's amount.  The cart expiry
string (now + 30 minutes) is environmental and the feature label is built by
the excluded presentation-only _infer_product_features logic; both are
passed in. -/
def create_cart_mandate (item : PaymentItem) (item_count : Nat)
    (cart_expiry features_label : String) : CartMandate :=
  let feature_amount := { item.amount with value := 0 }
  let feature_item : PaymentItem := { label := features_label, amount := feature_amount }
  let payment_request : PaymentRequest :=
    { methodData := [{ supportedMethods := "CARD",
                       networks := ["visa", "mastercard", "paypal", "amex"] }]
      details :=
        { id := "order_" ++ Nat.repr item_count
          displayItems := some [item, feature_item]
          total := { label := "Total", amount := item.amount } }
      options := { requestShipping := true }
      shippingAddress := none }
  { contents :=
      { id := "cart_" ++ Nat.repr item_count
        userCartConfirmationRequired := true
        paymentRequest := payment_request
        cartExpiry := cart_expiry
        merchantName := merchant_name_for_item item_count }
    merchantAuthorization := none }

/-- displayItemsOf lists a cart's display items ([] when the optional list
is not set). -/
def displayItemsOf (cm : CartMandate) : List PaymentItem :=
  (cm.contents.paymentRequest.details.displayItems).getD []

/-- cartInvariant is the spec invariant: the total amount equals the sum of
the display item amounts. -/
def cartInvariant (cm : CartMandate) : Prop :=
  cm.contents.paymentRequest.details.total.amount.value =
    ((displayItemsOf cm).map (fun it => it.amount.value)).sum

/-- scanHistory is the loop of _get_payment_processor_task_id: the task_id
of the first history message whose task_id differs from the local task id
(the a2a Message task_id is optional). -/
def scanHistory (taskId : String) : List HistoryMessage → Option String
  | [] => none
  | m :: rest => if m.taskId ≠ some taskId then m.taskId else scanHistory taskId rest

/-- Embedding of _get_payment_processor_task_id. -/
def get_payment_processor_task_id : Option Task → Option String
  | none => none
  | some task => scanHistory task.id task.history

/-- counterparty_task_id_spec restates the spec's recovery rule word for
word: scan the history for the first message whose task identifier differs
from the task's own identifier and return that identifier; none when every
message carries the task's own id. -/
def counterparty_task_id_spec (task : Task) : Option String :=
  match task.history.find? (fun m => m.taskId != some task.id) with
  | some m => m.taskId
  | none => none

/-! ### Association-list lemmas -/

theorem alistGet_set_same {α : Type} (l : List (String × α)) (k : String) (v : α) :
    alistGet (alistSet l k v) k = some v := by
  induction l with
  | nil => simp [alistSet, alistGet]
  | cons p rest ih =>
    by_cases h : p.1 = k
    · simp [alistSet, h, alistGet]
    · simp [alistSet, h, alistGet, ih]

theorem alistGet_set_ne {α : Type} (l : List (String × α)) (k k' : String) (v : α)
    (h : k' ≠ k) : alistGet (alistSet l k v) k' = alistGet l k' := by
  have h' : k ≠ k' := fun hc => h hc.symm
  induction l with
  | nil => simp [alistSet, alistGet, h']
  | cons p rest ih =>
    by_cases hp : p.1 = k
    · subst hp
      simp [alistSet, alistGet, h']
    · simp [alistSet, hp, alistGet, ih]

theorem alistGet_eq_none_iff {α : Type} (l : List (String × α)) (k : String) :
    alistGet l k = none ↔ k ∉ keysOf l := by
  induction l with
  | nil => simp [alistGet, keysOf]
  | cons p rest ih =>
    by_cases h : p.1 = k
    · simp [alistGet, h, keysOf]
    · have h' : k ≠ p.1 := fun hc => h hc.symm
      simp [alistGet, h, keysOf, h', ih]

theorem alistGet_mem_keys {α : Type} (l : List (String × α)) (k : String) (v : α)
    (h : alistGet l k = some v) : k ∈ keysOf l := by
  by_contra hk
  rw [← alistGet_eq_none_iff] at hk
  rw [h] at hk
  exact Option.noConfusion hk

theorem keys_set_mem {α : Type} (l : List (String × α)) (k : String) (v : α)
    (h : k ∈ keysOf l) : keysOf (alistSet l k v) = keysOf l := by
  induction l with
  | nil => simp [keysOf] at h
  | cons p rest ih =>
    by_cases hp : p.1 = k
    · simp [alistSet, hp, keysOf]
    · have hmem : k ∈ keysOf rest := by
        have h' : k ≠ p.1 := fun hc => hp hc.symm
        simpa [keysOf, h'] using h
      simp [alistSet, hp, keysOf]
      simpa [keysOf] using ih hmem

theorem keys_set_fresh {α : Type} (l : List (String × α)) (k : String) (v : α)
    (h : k ∉ keysOf l) : keysOf (alistSet l k v) = keysOf l ++ [k] := by
  induction l with
  | nil => simp [alistSet, keysOf]
  | cons p rest ih =>
    have hp : p.1 ≠ k := by
      intro hc
      exact h (by simp [keysOf, hc])
    have hk : k ∉ keysOf rest := by
      intro hc
      apply h
      simp only [keysOf, List.map_cons, List.mem_cons]
      right
      simpa [keysOf] using hc
    simp [alistSet, hp, keysOf]
    simpa [keysOf] using ih hk

theorem keysOf_length {α : Type} (l : List (String × α)) :
    (keysOf l).length = l.length := by
  simp [keysOf]

/-! ### Token-table invariants -/

theorem tokenName_injective : Function.Injective tokenName := by
  intro m n h
  have hdata := congrArg String.data h
  have : (Nat.repr m).data = (Nat.repr n).data := by
    have hsplit :
        ("fake_payment_credential_token_").data ++ (Nat.repr m).data =
          ("fake_payment_credential_token_").data ++ (Nat.repr n).data := by
      simpa [tokenName, String.data_append] using hdata
    exact List.append_cancel_left hsplit
  have : Nat.repr m = Nat.repr n := by
    cases hm : Nat.repr m
    cases hn : Nat.repr n
    simp_all
  exact natRepr_injective this

/-- NameInv tbl says the keys of the token table are exactly the token names
of the indices below its size, in order: the shape every table reachable from
the empty table has. -/
def NameInv (tbl : TokenTable) : Prop :=
  keysOf tbl = (List.range tbl.length).map tokenName

theorem tokenName_fresh (tbl : TokenTable) (hinv : NameInv tbl) :
    tokenName tbl.length ∉ keysOf tbl := by
  rw [hinv]
  intro hmem
  rcases List.mem_map.mp hmem with ⟨i, hi, hname⟩
  have := tokenName_injective hname
  have := List.mem_range.mp hi
  omega

theorem create_keys (tbl : TokenTable) (e a : String) (hinv : NameInv tbl) :
    keysOf (create_token tbl e a).2 = keysOf tbl ++ [tokenName tbl.length] := by
  exact keys_set_fresh tbl (tokenName tbl.length) _ (tokenName_fresh tbl hinv)

theorem amStep_update_keys (tbl : TokenTable) (t p : String) :
    keysOf (amStep tbl (.update t p)) = keysOf tbl := by
  show keysOf (match update_token tbl t p with
    | .ok tbl' => tbl'
    | .error _ => tbl) = keysOf tbl
  rw [update_token]
  cases hget : alistGet tbl t with
  | none => rfl
  | some r =>
    by_cases htr : truthyOptStr r.paymentMandateId
    · simp [htr]
    · simp [htr]
      exact keys_set_mem tbl t _ (alistGet_mem_keys tbl t r hget)

theorem amStep_nameInv (tbl : TokenTable) (op : AmOp) (hinv : NameInv tbl) :
    NameInv (amStep tbl op) := by
  cases op with
  | create e a =>
    show NameInv (create_token tbl e a).2
    have hkeys := create_keys tbl e a hinv
    have hlen : (create_token tbl e a).2.length = tbl.length + 1 := by
      have h1 := keysOf_length (create_token tbl e a).2
      have h2 := keysOf_length tbl
      rw [hkeys] at h1
      simp at h1
      omega
    rw [NameInv, hkeys, hlen, hinv, List.range_succ]
    simp
  | update t p =>
    have hkeys := amStep_update_keys tbl t p
    have hlen : (amStep tbl (.update t p)).length = tbl.length := by
      have h1 := keysOf_length (amStep tbl (.update t p))
      have h2 := keysOf_length tbl
      rw [hkeys] at h1
      omega
    rw [NameInv, hkeys, hlen, hinv]

theorem foldl_amStep_nameInv (ops : List AmOp) :
    ∀ tbl : TokenTable, NameInv tbl → NameInv (List.foldl amStep tbl ops) := by
  induction ops with
  | nil => intro tbl h; exact h
  | cons op rest ih =>
    intro tbl h
    exact ih (amStep tbl op) (amStep_nameInv tbl op h)

theorem runOps_nameInv (ops : List AmOp) : NameInv (runOps ops) :=
  foldl_amStep_nameInv ops [] (by simp [NameInv, keysOf])

theorem runOps_append (pre suf : List AmOp) :
    runOps (pre ++ suf) = List.foldl amStep (runOps pre) suf := by
  simp [runOps, List.foldl_append]

/-! ### Bound-id lemmas -/

theorem boundIdOf_some (tbl : TokenTable) (t : String) (r : TokenRecord)
    (h : alistGet tbl t = some r) : boundIdOf tbl t = r.paymentMandateId := by
  rw [boundIdOf, h]
  rfl

theorem boundIdOf_none (tbl : TokenTable) (t : String)
    (h : alistGet tbl t = none) : boundIdOf tbl t = none := by
  rw [boundIdOf, h]
  rfl

theorem create_token_fst (tbl : TokenTable) (e a : String) :
    (create_token tbl e a).1 = tokenName tbl.length := rfl

theorem create_token_snd (tbl : TokenTable) (e a : String) :
    (create_token tbl e a).2 =
      alistSet tbl (tokenName tbl.length)
        { emailAddress := e, paymentMethodAlias := a, paymentMandateId := none } := rfl

theorem amStep_update_eq (tbl : TokenTable) (t p : String) :
    amStep tbl (.update t p) =
      match alistGet tbl t with
      | none => tbl
      | some r =>
          if truthyOptStr r.paymentMandateId then tbl
          else alistSet tbl t { r with paymentMandateId := some p } := by
  show (match update_token tbl t p with
    | .ok tbl' => tbl'
    | .error _ => tbl) = _
  rw [update_token]
  cases alistGet tbl t with
  | none => rfl
  | some r =>
    by_cases htr : truthyOptStr r.paymentMandateId <;> simp [htr]

theorem verify_token_ok_bound (tbl : TokenTable) (t p : String)
    (pm : Option PaymentMethod) (h : verify_token tbl t p = .ok pm) :
    boundIdOf tbl t = some p := by
  unfold verify_token at h
  cases hget : alistGet tbl t with
  | none =>
    rw [hget] at h
    exact Except.noConfusion h
  | some r =>
    rw [hget] at h
    simp only at h
    by_cases hne : r.paymentMandateId ≠ some p
    · rw [if_pos hne] at h
      exact Except.noConfusion h
    · push_neg at hne
      rw [boundIdOf_some tbl t r hget, hne]

theorem boundId_create (tbl : TokenTable) (e a t : String) :
    boundIdOf (amStep tbl (.create e a)) t = none ∨
      boundIdOf (amStep tbl (.create e a)) t = boundIdOf tbl t := by
  show boundIdOf (create_token tbl e a).2 t = none ∨
    boundIdOf (create_token tbl e a).2 t = boundIdOf tbl t
  rw [create_token_snd]
  by_cases ht : t = tokenName tbl.length
  · left
    subst ht
    rw [boundIdOf_some _ _ _ (alistGet_set_same tbl _ _)]
  · right
    rw [boundIdOf, alistGet_set_ne tbl _ t _ ht, boundIdOf]

theorem boundId_update (tbl : TokenTable) (t' p t : String) :
    boundIdOf (amStep tbl (.update t' p)) t = boundIdOf tbl t ∨
      (t = t' ∧ boundIdOf (amStep tbl (.update t' p)) t = some p) := by
  rw [amStep_update_eq]
  cases hget : alistGet tbl t' with
  | none => left; rfl
  | some r =>
    by_cases htr : truthyOptStr r.paymentMandateId
    · left; simp [htr]
    · simp only [htr, Bool.false_eq_true, if_false]
      by_cases ht : t = t'
      · right
        subst ht
        exact ⟨rfl, boundIdOf_some _ _ _ (alistGet_set_same tbl _ _)⟩
      · left
        rw [boundIdOf, alistGet_set_ne tbl _ t _ ht, boundIdOf]

theorem boundId_origin (ops : List AmOp) :
    ∀ (tbl : TokenTable) (t A : String),
      boundIdOf (List.foldl amStep tbl ops) t = some A →
      boundIdOf tbl t = some A ∨ AmOp.update t A ∈ ops := by
  induction ops with
  | nil => intro tbl t A h; left; exact h
  | cons op rest ih =>
    intro tbl t A h
    rw [List.foldl_cons] at h
    rcases ih (amStep tbl op) t A h with h1 | h1
    · cases op with
      | create e a =>
        rcases boundId_create tbl e a t with h2 | h2
        · rw [h2] at h1; exact Option.noConfusion h1
        · left; rw [← h2]; exact h1
      | update t' p =>
        rcases boundId_update tbl t' p t with h2 | ⟨ht, h2⟩
        · left; rw [← h2]; exact h1
        · rw [h2] at h1
          have : p = A := by injection h1
          right
          subst ht this
          simp
    · right; simp [h1]

theorem boundId_runOps_origin (ops : List AmOp) (t A : String)
    (h : boundIdOf (runOps ops) t = some A) : AmOp.update t A ∈ ops := by
  rcases boundId_origin ops [] t A h with h1 | h1
  · simp [boundIdOf, alistGet] at h1
  · exact h1

theorem boundId_persist_step (tbl : TokenTable) (op : AmOp) (t A : String)
    (hinv : NameInv tbl) (hb : boundIdOf tbl t = some A) (hA : A ≠ "") :
    boundIdOf (amStep tbl op) t = some A := by
  have hmem : t ∈ keysOf tbl := by
    rw [boundIdOf] at hb
    cases hget : alistGet tbl t with
    | none => rw [hget] at hb; exact Option.noConfusion hb
    | some r => exact alistGet_mem_keys tbl t r hget
  cases op with
  | create e a =>
    have ht : t ≠ tokenName tbl.length := by
      intro hc
      exact tokenName_fresh tbl hinv (hc ▸ hmem)
    show boundIdOf (create_token tbl e a).2 t = some A
    rw [create_token_snd, boundIdOf, alistGet_set_ne tbl _ t _ ht]
    exact hb
  | update t' p =>
    rw [amStep_update_eq]
    cases hget : alistGet tbl t' with
    | none => exact hb
    | some r =>
      by_cases htr : truthyOptStr r.paymentMandateId
      · simp only [htr, if_true]
        exact hb
      · simp only [htr, Bool.false_eq_true, if_false]
        by_cases ht : t = t'
        · subst ht
          rw [boundIdOf_some tbl t r hget] at hb
          rw [hb] at htr
          simp [truthyOptStr, hA] at htr
        · rw [boundIdOf, alistGet_set_ne tbl _ t _ ht]
          exact hb

theorem boundId_persist_fold (suf : List AmOp) :
    ∀ (tbl : TokenTable) (t A : String), NameInv tbl →
      boundIdOf tbl t = some A → A ≠ "" →
      boundIdOf (List.foldl amStep tbl suf) t = some A := by
  induction suf with
  | nil => intro tbl t A _ hb _; exact hb
  | cons op rest ih =>
    intro tbl t A hinv hb hA
    rw [List.foldl_cons]
    exact ih (amStep tbl op) t A (amStep_nameInv tbl op hinv)
      (boundId_persist_step tbl op t A hinv hb hA) hA

/-! ### Created-token invariants -/

/-- AmInv relates a table with the list of tokens handed out so far: the
table has the canonical key shape, and its keys are exactly the created
tokens, which are pairwise distinct. -/
structure AmInv (tbl : TokenTable) (acc : List String) : Prop where
  name_inv : NameInv tbl
  created_mem : ∀ t ∈ acc, t ∈ keysOf tbl
  keys_mem : ∀ t ∈ keysOf tbl, t ∈ acc
  nodup : acc.Nodup

theorem amStepAcc_fst (acc : TokenTable × List String) (op : AmOp) :
    (amStepAcc acc op).1 = amStep acc.1 op := by
  cases op <;> rfl

theorem amInv_step (tbl : TokenTable) (acc : List String) (op : AmOp)
    (h : AmInv tbl acc) :
    AmInv (amStepAcc (tbl, acc) op).1 (amStepAcc (tbl, acc) op).2 := by
  cases op with
  | create e a =>
    have hfresh := tokenName_fresh tbl h.name_inv
    have hkeys := create_keys tbl e a h.name_inv
    refine ⟨amStep_nameInv tbl (.create e a) h.name_inv, ?_, ?_, ?_⟩
    · intro t ht
      show t ∈ keysOf (create_token tbl e a).2
      rw [hkeys]
      simp only [amStepAcc, List.mem_append, List.mem_singleton] at ht
      rcases ht with ht | ht
      · exact List.mem_append_left _ (h.created_mem t ht)
      · rw [create_token_fst] at ht
        exact List.mem_append_right _ (by simp [ht])
    · intro t ht
      show t ∈ acc ++ [tokenName tbl.length]
      rw [show (amStepAcc (tbl, acc) (.create e a)).1 = (create_token tbl e a).2 from rfl,
        hkeys] at ht
      rcases List.mem_append.mp ht with ht | ht
      · exact List.mem_append_left _ (h.keys_mem t ht)
      · exact List.mem_append_right _ ht
    · show (acc ++ [tokenName tbl.length]).Nodup
      have hnot : tokenName tbl.length ∉ acc :=
        fun hc => hfresh (h.created_mem _ hc)
      simp [List.nodup_append, h.nodup, hnot]
  | update t' p =>
    refine ⟨amStep_nameInv tbl (.update t' p) h.name_inv, ?_, ?_, h.nodup⟩
    · intro t ht
      show t ∈ keysOf (amStep tbl (.update t' p))
      rw [amStep_update_keys]
      exact h.created_mem t ht
    · intro t ht
      show t ∈ acc
      rw [show (amStepAcc (tbl, acc) (.update t' p)).1 = amStep tbl (.update t' p) from rfl,
        amStep_update_keys] at ht
      exact h.keys_mem t ht

theorem amInv_foldl (ops : List AmOp) :
    ∀ (tbl : TokenTable) (acc : List String), AmInv tbl acc →
      AmInv (List.foldl amStepAcc (tbl, acc) ops).1 (List.foldl amStepAcc (tbl, acc) ops).2 := by
  induction ops with
  | nil => intro tbl acc h; exact h
  | cons op rest ih =>
    intro tbl acc h
    rw [List.foldl_cons]
    have h1 := amInv_step tbl acc op h
    have : amStepAcc (tbl, acc) op = ((amStepAcc (tbl, acc) op).1, (amStepAcc (tbl, acc) op).2) := rfl
    rw [this]
    exact ih _ _ h1

theorem amInv_empty : AmInv [] [] :=
  ⟨by simp [NameInv, keysOf], by simp, by simp [keysOf], List.nodup_nil⟩

theorem amInv_run (ops : List AmOp) :
    AmInv (List.foldl amStepAcc ([], []) ops).1 (createdTokens ops) :=
  amInv_foldl ops [] [] amInv_empty

theorem foldl_amStepAcc_fst (ops : List AmOp) :
    ∀ (tbl : TokenTable) (acc : List String),
      (List.foldl amStepAcc (tbl, acc) ops).1 = List.foldl amStep tbl ops := by
  induction ops with
  | nil => intro tbl acc; rfl
  | cons op rest ih =>
    intro tbl acc
    rw [List.foldl_cons, List.foldl_cons,
      show amStepAcc (tbl, acc) op = ((amStepAcc (tbl, acc) op).1, (amStepAcc (tbl, acc) op).2) from rfl,
      ih, amStepAcc_fst]

/-! ### Characterizations of the token operations -/

theorem verify_token_none (tbl : TokenTable) (t p : String)
    (h : alistGet tbl t = none) :
    verify_token tbl t p = .error .invalidToken := by
  unfold verify_token
  rw [h]

theorem verify_token_some (tbl : TokenTable) (t p : String) (r : TokenRecord)
    (h : alistGet tbl t = some r) :
    verify_token tbl t p =
      if r.paymentMandateId ≠ some p then .error .invalidToken
      else .ok (get_payment_method_by_alias r.emailAddress r.paymentMethodAlias) := by
  unfold verify_token
  rw [h]

theorem update_token_some (tbl : TokenTable) (t p : String) (r : TokenRecord)
    (h : alistGet tbl t = some r) :
    update_token tbl t p =
      if truthyOptStr r.paymentMandateId then .ok tbl
      else .ok (alistSet tbl t { r with paymentMandateId := some p }) := by
  unfold update_token
  rw [h]

/-! ## Claims -/

/-- Claim C9: create_token always succeeds, stores and returns a token whose
payment_mandate_id is initially unset, and every call returns a token
distinct from all tokens returned by earlier calls of the run. -/
theorem create_token_fresh_and_unbound :
    (∀ (tbl : TokenTable) (e a : String),
        alistGet (create_token tbl e a).2 (create_token tbl e a).1 =
          some { emailAddress := e, paymentMethodAlias := a, paymentMandateId := none }) ∧
    (∀ ops : List AmOp, (createdTokens ops).Nodup) := by
  constructor
  · intro tbl e a
    rw [create_token_fst, create_token_snd]
    exact alistGet_set_same tbl _ _
  · intro ops
    exact (amInv_run ops).nodup

/-- Claim C4: verify_token raises the invalid-token error exactly when the
token is unknown or its stored payment mandate id differs from the supplied
one; every error it raises is that specific error; and a token never created
by the run always fails this way. -/
theorem verify_token_invalid_characterization :
    (∀ (tbl : TokenTable) (t p : String),
        verify_token tbl t p = .error .invalidToken ↔
          (alistGet tbl t = none ∨
            ∃ r, alistGet tbl t = some r ∧ r.paymentMandateId ≠ some p)) ∧
    (∀ (tbl : TokenTable) (t p : String) (e : AmError),
        verify_token tbl t p = .error e → e = .invalidToken) ∧
    (∀ (ops : List AmOp) (t p : String),
        t ∉ createdTokens ops →
        verify_token (runOps ops) t p = .error .invalidToken) := by
  refine ⟨?_, ?_, ?_⟩
  · intro tbl t p
    cases hget : alistGet tbl t with
    | none => simp [verify_token_none tbl t p hget, hget]
    | some r =>
      rw [verify_token_some tbl t p r hget]
      by_cases hne : r.paymentMandateId = some p
      · simp [hne, hget]
      · simp [hne, hget]
  · intro tbl t p e h
    cases hget : alistGet tbl t with
    | none =>
      rw [verify_token_none tbl t p hget] at h
      injection h with h
      exact h.symm
    | some r =>
      rw [verify_token_some tbl t p r hget] at h
      by_cases hne : r.paymentMandateId ≠ some p
      · rw [if_pos hne] at h
        injection h with h
        exact h.symm
      · rw [if_neg hne] at h
        exact Except.noConfusion h
  · intro ops t p hnc
    have hinv := amInv_run ops
    have heq : (List.foldl amStepAcc ([], []) ops).1 = runOps ops :=
      foldl_amStepAcc_fst ops [] []
    rw [heq] at hinv
    apply verify_token_none
    rw [alistGet_eq_none_iff]
    intro hk
    exact hnc (hinv.keys_mem t hk)

/-- Witness for C4: redeeming a token in a run that never created it fails
with the invalid-token error. -/
theorem verify_token_invalid_characterization_witness :
    verify_token (runOps []) "tok_x" "pm_x" = .error .invalidToken :=
  verify_token_invalid_characterization.2.2 [] "tok_x" "pm_x" (by decide)

/-- Counterexample for C3 as stated: a token bound by a successful
update_token with the empty-string mandate id is rebound by the next
update_token call — the stored id does not stay equal to the first bound
id, because the source tests Python truthiness, under which the empty
string counts as unset. -/
theorem update_token_rebind_counterexample :
    update_token ((create_token [] "e@x" "visa").2) "fake_payment_credential_token_0" "" =
      .ok [("fake_payment_credential_token_0", (⟨"e@x", "visa", some ""⟩ : TokenRecord))] ∧
    update_token [("fake_payment_credential_token_0", (⟨"e@x", "visa", some ""⟩ : TokenRecord))]
        "fake_payment_credential_token_0" "pm_B" =
      .ok [("fake_payment_credential_token_0", (⟨"e@x", "visa", some "pm_B"⟩ : TokenRecord))] ∧
    some "pm_B" ≠ some "" := by
  refine ⟨rfl, rfl, by decide⟩

/-- Claim C3 (amended): once a token is bound to a non-empty payment mandate
id A, every subsequent update_token call — with the same or a different id —
returns without error and leaves the table, hence the bound id A, unchanged;
a binding to the empty string is treated as unset by the source's truthiness
check and can be overwritten. -/
theorem update_token_preserves_nonempty_binding (tbl : TokenTable)
    (t B A : String) (r : TokenRecord) (hget : alistGet tbl t = some r)
    (hA : r.paymentMandateId = some A) (hA0 : A ≠ "") :
    update_token tbl t B = .ok tbl ∧ boundIdOf tbl t = some A := by
  have htr : truthyOptStr r.paymentMandateId = true := by
    rw [hA]
    simp [truthyOptStr, hA0]
  constructor
  · rw [update_token_some tbl t B r hget, if_pos htr]
  · rw [boundIdOf_some tbl t r hget, hA]

/-- Witness for C3 (amended): a token bound to pm_1 stays bound to pm_1
across a rebinding attempt with a different id. -/
theorem update_token_preserves_nonempty_binding_witness :
    update_token [("tok", (⟨"e@x", "visa", some "pm_1"⟩ : TokenRecord))] "tok" "pm_other" =
      .ok [("tok", (⟨"e@x", "visa", some "pm_1"⟩ : TokenRecord))] ∧
    boundIdOf [("tok", (⟨"e@x", "visa", some "pm_1"⟩ : TokenRecord))] "tok" = some "pm_1" :=
  update_token_preserves_nonempty_binding _ "tok" "pm_other" "pm_1"
    (⟨"e@x", "visa", some "pm_1"⟩ : TokenRecord) rfl rfl (by decide)

/-- Counterexample for C5 as stated: in the run that binds the empty string
first and pm_B second, redemption with pm_B succeeds although another
mandate id (the empty string) was bound first by a successful
update_token. -/
theorem verify_token_after_rebind_counterexample :
    verify_token
        (runOps [.create "e@x" "visa",
                 .update "fake_payment_credential_token_0" "",
                 .update "fake_payment_credential_token_0" "pm_B"])
        "fake_payment_credential_token_0" "pm_B" = .ok none ∧
    boundIdOf (runOps [.create "e@x" "visa", .update "fake_payment_credential_token_0" ""])
        "fake_payment_credential_token_0" = some "" ∧
    ("" : String) ≠ "pm_B" := by
  refine ⟨rfl, rfl, by decide⟩

/-- Claim C5 (amended): in any run whose update_token calls all carry
non-empty mandate ids, verify_token(t, A) succeeds only if update_token(t, A)
previously succeeded and no other mandate id was ever the bound id of t at
any earlier point; verify_token(t, B) with B different from the redeemable id
fails with the invalid-token error; and a token never targeted by any
update_token cannot be redeemed.  Binding the empty string is treated as
unset by the source and breaks the unamended claim. -/
theorem verify_token_redeem_only_after_bind (ops : List AmOp)
    (hne : ∀ t' p, AmOp.update t' p ∈ ops → p ≠ "") :
    (∀ (t A : String) (pm : Option PaymentMethod),
        verify_token (runOps ops) t A = .ok pm →
        AmOp.update t A ∈ ops ∧
        ∀ pre suf B, ops = pre ++ suf → boundIdOf (runOps pre) t = some B → B = A) ∧
    (∀ (t A B : String) (pm : Option PaymentMethod),
        verify_token (runOps ops) t A = .ok pm → B ≠ A →
        verify_token (runOps ops) t B = .error .invalidToken) ∧
    (∀ t A : String, (∀ p, AmOp.update t p ∉ ops) →
        verify_token (runOps ops) t A = .error .invalidToken) := by
  refine ⟨?_, ?_, ?_⟩
  · intro t A pm hok
    have hb := verify_token_ok_bound _ _ _ _ hok
    refine ⟨boundId_runOps_origin ops t A hb, ?_⟩
    intro pre suf B heq hpre
    have hupdB : AmOp.update t B ∈ pre := boundId_runOps_origin pre t B hpre
    have hmemops : AmOp.update t B ∈ ops := by
      rw [heq]
      exact List.mem_append_left suf hupdB
    have hBne : B ≠ "" := hne t B hmemops
    have hper : boundIdOf (runOps ops) t = some B := by
      rw [heq, runOps_append]
      exact boundId_persist_fold suf (runOps pre) t B (runOps_nameInv pre) hpre hBne
    rw [hb] at hper
    injection hper with hper
    exact hper.symm
  · intro t A B pm hok hBA
    have hb := verify_token_ok_bound _ _ _ _ hok
    cases hget : alistGet (runOps ops) t with
    | none =>
      rw [boundIdOf_none _ _ hget] at hb
      exact Option.noConfusion hb
    | some r =>
      rw [boundIdOf_some _ _ _ hget] at hb
      have hcond : r.paymentMandateId ≠ some B := by
        rw [hb]
        intro hc
        injection hc with hc
        exact hBA hc.symm
      rw [verify_token_some _ _ _ _ hget, if_pos hcond]
  · intro t A hupd
    cases hget : alistGet (runOps ops) t with
    | none => exact verify_token_none _ _ _ hget
    | some r =>
      have hcond : r.paymentMandateId ≠ some A := by
        intro hc
        have hbound : boundIdOf (runOps ops) t = some A := by
          rw [boundIdOf_some _ _ _ hget, hc]
        exact hupd A (boundId_runOps_origin ops t A hbound)
      rw [verify_token_some _ _ _ _ hget, if_pos hcond]

/-- Witness for C5 (amended): in the run that creates a token and binds it
to pm_1, redemption with pm_1 succeeds and the binding call is indeed in the
run. -/
theorem verify_token_redeem_only_after_bind_witness :
    AmOp.update "fake_payment_credential_token_0" "pm_1" ∈
      ([.create "e@x" "visa", .update "fake_payment_credential_token_0" "pm_1"] : List AmOp) :=
  ((verify_token_redeem_only_after_bind
      [.create "e@x" "visa", .update "fake_payment_credential_token_0" "pm_1"]
      (by
        intro t' p hmem
        rcases List.mem_cons.mp hmem with h | h
        · exact absurd h (by simp)
        · rcases List.mem_cons.mp h with h2 | h2
          · injection h2 with h1 h2'
            subst h2'
            decide
          · simp at h2)).1
    "fake_payment_credential_token_0" "pm_1" none rfl).1

/-- scanHistory agrees with the first-differing-message search. -/
theorem scanHistory_eq_find (tid : String) (hist : List HistoryMessage) :
    scanHistory tid hist =
      match hist.find? (fun m => m.taskId != some tid) with
      | some m => m.taskId
      | none => none := by
  induction hist with
  | nil => rfl
  | cons m rest ih =>
    by_cases h : m.taskId = some tid
    · simp [scanHistory, List.find?_cons, h, ih]
    · simp [scanHistory, List.find?_cons, h]

/-- Claim C8: _get_payment_processor_task_id returns none when no task is
given, and otherwise implements exactly the spec's counterparty-task-id
recovery rule: the task_id of the first history message whose task_id
differs from the task's own id, none when every message carries the task's
own id. -/
theorem get_payment_processor_task_id_correct :
    get_payment_processor_task_id none = none ∧
    ∀ task : Task,
      get_payment_processor_task_id (some task) = counterparty_task_id_spec task := by
  constructor
  · rfl
  · intro task
    show scanHistory task.id task.history = counterparty_task_id_spec task
    rw [counterparty_task_id_spec, scanHistory_eq_find]

/-- Claim C6: every cart built by the catalog workflow satisfies the total
invariant at creation, its display items being the main item followed by the
zero-amount feature item; and the update_cart mutation appends exactly the
Shipping (JPY 400) and Tax (JPY 350) items and re-establishes the invariant
by recomputing the total as the sum over all display items. -/
theorem cart_total_invariant :
    (∀ (item : PaymentItem) (n : Nat) (expiry flabel : String),
        cartInvariant (create_cart_mandate item n expiry flabel) ∧
        (displayItemsOf (create_cart_mandate item n expiry flabel)).map
            (fun it => it.amount.value) = [item.amount.value, 0]) ∧
    (∀ (cm : CartMandate) (addr : ContactAddress),
        cartInvariant (update_cart_mandate cm addr) ∧
        displayItemsOf (update_cart_mandate cm addr) =
          displayItemsOf cm ++ [shippingItem, taxItem]) := by
  constructor
  · intro item n expiry flabel
    constructor
    · show item.amount.value = ([item.amount.value, (0 : Int)]).sum
      simp
    · rfl
  · intro cm addr
    cases h : cm.contents.paymentRequest.details.displayItems with
    | none =>
      constructor
      · show cartInvariant (update_cart_mandate cm addr)
        simp [cartInvariant, update_cart_mandate, displayItemsOf, h]
      · simp [update_cart_mandate, displayItemsOf, h]
    | some l =>
      constructor
      · show cartInvariant (update_cart_mandate cm addr)
        simp [cartInvariant, update_cart_mandate, displayItemsOf, h]
      · simp [update_cart_mandate, displayItemsOf, h]

/-- Claim C7: update_cart fails the task with the human-readable reason as an
outbound message — not a raised exception — and attaches no cart artifact, in
each precondition-failure case: missing cart_id part, missing
shipping_address part, no stored CartMandate for the cart_id, no stored risk
data for the context id.  The final conjunct shows the single failed status
update makes the task failed with that message and leaves its artifacts
untouched. -/
theorem update_cart_precondition_failures
    (dataParts : List (String × DataVal)) (contextId : String)
    (store : MerchantStore) (t : Task) :
    (find_data_part "cart_id" dataParts = none →
        update_cart dataParts contextId store = [fail_task "Missing cart_id."]) ∧
    (∀ s : String, s ≠ "" →
        find_data_part "cart_id" dataParts = some (.str s) →
        find_data_part "shipping_address" dataParts = none →
        update_cart dataParts contextId store = [fail_task "Missing shipping_address."]) ∧
    (∀ (s : String) (v : DataVal), s ≠ "" →
        find_data_part "cart_id" dataParts = some (.str s) →
        find_data_part "shipping_address" dataParts = some v → truthyVal v = true →
        alistGet store.carts s = none →
        update_cart dataParts contextId store =
          [fail_task ("CartMandate not found for cart_id: " ++ s)]) ∧
    (∀ (s : String) (v : DataVal) (cm : CartMandate), s ≠ "" →
        find_data_part "cart_id" dataParts = some (.str s) →
        find_data_part "shipping_address" dataParts = some v → truthyVal v = true →
        alistGet store.carts s = some cm →
        alistGet store.risk contextId = none →
        update_cart dataParts contextId store =
          [fail_task ("Missing risk_data for context_id: " ++ contextId)]) ∧
    (∀ m : List MsgPart,
        (applyEvents t [.failed m]).status.state = .failed ∧
        (applyEvents t [.failed m]).status.message = some m ∧
        (applyEvents t [.failed m]).artifacts = t.artifacts) := by
  refine ⟨?_, ?_, ?_, ?_, ?_⟩
  · intro h1
    simp [update_cart, h1, truthyOptVal]
  · intro s hs h1 h2
    simp [update_cart, h1, h2, truthyOptVal, truthyVal, hs]
  · intro s v hs h1 h2 hv hc
    have hvs : truthyVal (.str s) = true := by simp [truthyVal, hs]
    simp [update_cart, h1, h2, truthyOptVal, hvs, hv, get_cart_mandate, hc, showCartIdVal]
  · intro s v cm hs h1 h2 hv hc hr
    have hvs : truthyVal (.str s) = true := by simp [truthyVal, hs]
    simp [update_cart, h1, h2, truthyOptVal, hvs, hv, get_cart_mandate, hc,
      get_risk_data, hr]
  · intro m
    refine ⟨rfl, rfl, rfl⟩

/-- Witness for C7: each of the four precondition failures observed on
concrete inputs, via the theorem. -/
theorem update_cart_precondition_failures_witness :
    update_cart [] "ctx" ⟨[], []⟩ = [fail_task "Missing cart_id."] ∧
    update_cart [("cart_id", .str "c1")] "ctx" ⟨[], []⟩ =
      [fail_task "Missing shipping_address."] ∧
    update_cart [("cart_id", .str "c1"),
        ("shipping_address", .addr ⟨none, none, [], none, none, none, none, none⟩)]
        "ctx" ⟨[], []⟩ =
      [fail_task "CartMandate not found for cart_id: c1"] ∧
    update_cart [("cart_id", .str "c1"),
        ("shipping_address", .addr ⟨none, none, [], none, none, none, none, none⟩)]
        "ctx"
        ⟨[("c1", create_cart_mandate ⟨"Item", ⟨"JPY", 100⟩⟩ 1 "exp" "feat")], []⟩ =
      [fail_task "Missing risk_data for context_id: ctx"] := by
  refine ⟨?_, ?_, ?_, ?_⟩
  · exact (update_cart_precondition_failures [] "ctx" ⟨[], []⟩
      ⟨"t1", "ctx", ⟨.working, none⟩, [], []⟩).1 rfl
  · exact (update_cart_precondition_failures [("cart_id", .str "c1")] "ctx" ⟨[], []⟩
      ⟨"t1", "ctx", ⟨.working, none⟩, [], []⟩).2.1 "c1" (by decide) rfl rfl
  · exact (update_cart_precondition_failures
      [("cart_id", .str "c1"),
       ("shipping_address", .addr ⟨none, none, [], none, none, none, none, none⟩)]
      "ctx" ⟨[], []⟩ ⟨"t1", "ctx", ⟨.working, none⟩, [], []⟩).2.2.1 "c1"
      (.addr ⟨none, none, [], none, none, none, none, none⟩)
      (by decide) rfl rfl rfl rfl
  · exact (update_cart_precondition_failures
      [("cart_id", .str "c1"),
       ("shipping_address", .addr ⟨none, none, [], none, none, none, none, none⟩)]
      "ctx"
      ⟨[("c1", create_cart_mandate ⟨"Item", ⟨"JPY", 100⟩⟩ 1 "exp" "feat")], []⟩
      ⟨"t1", "ctx", ⟨.working, none⟩, [], []⟩).2.2.2.1 "c1"
      (.addr ⟨none, none, [], none, none, none, none, none⟩)
      (create_cart_mandate ⟨"Item", ⟨"JPY", 100⟩⟩ 1 "exp" "feat")
      (by decide) rfl rfl rfl rfl rfl

/-- Claim C2: with a payment mandate and no existing task, the processor
emits exactly one requires_input status update whose message carries the
structured challenge descriptor with the fields type and display_text; no
artifact is attached and no credential is requested or validated. -/
theorem initiate_payment_new_task_challenge (env : PayEnv)
    (dataParts : List (String × DataVal)) (m : PaymentMandate)
    (h : find_data_part PAYMENT_MANDATE_DATA_KEY dataParts = some (.mandate m)) :
    initiate_payment env dataParts none = some raise_challenge ∧
    raise_challenge =
      [.requiresInput
        [.text "Please provide the challenge response to complete the payment.",
         .data "challenge" (.challenge challengeData)]] ∧
    challengeData.type = "otp" ∧
    raise_challenge.filter isAddArtifactE = [] ∧
    raise_challenge.filter isRequestCredentialE = [] ∧
    (∀ t : Task,
        (applyEvents t raise_challenge).status.state = .inputRequired ∧
        (applyEvents t raise_challenge).status.message =
          some [.text "Please provide the challenge response to complete the payment.",
                .data "challenge" (.challenge challengeData)] ∧
        (applyEvents t raise_challenge).artifacts = t.artifacts) := by
  refine ⟨?_, rfl, rfl, rfl, rfl, ?_⟩
  · simp [initiate_payment, h, truthyOptVal, truthyVal, handle_payment_mandate]
  · intro t
    exact ⟨rfl, rfl, rfl⟩

/-- Witness for C2: a concrete new-task invocation with a payment mandate
yields the challenge. -/
theorem initiate_payment_new_task_challenge_witness :
    initiate_payment ⟨"pid", "ts"⟩
      [(PAYMENT_MANDATE_DATA_KEY,
        DataVal.mandate ⟨⟨"pm_1", ⟨"Total", ⟨"JPY", 850⟩⟩, ⟨"CARD", "url"⟩⟩⟩)]
      none = some raise_challenge :=
  (initiate_payment_new_task_challenge ⟨"pid", "ts"⟩
    [(PAYMENT_MANDATE_DATA_KEY,
      DataVal.mandate ⟨⟨"pm_1", ⟨"Total", ⟨"JPY", 850⟩⟩, ⟨"CARD", "url"⟩⟩⟩)]
    ⟨⟨"pm_1", ⟨"Total", ⟨"JPY", 850⟩⟩, ⟨"CARD", "url"⟩⟩⟩ rfl).1

/-- Claim C1: re-invoking initiate_payment with a payment mandate on an
input_required task completes the task exactly when the challenge response
is "123"; on success exactly one PaymentReceipt artifact is attached whose
payment_mandate_id and amount come from the mandate; on any other response
the task re-enters input_required with the corrective message and no receipt
artifact. -/
theorem initiate_payment_challenge_resolution (env : PayEnv)
    (dataParts : List (String × DataVal)) (m : PaymentMandate) (task : Task)
    (hm : find_data_part PAYMENT_MANDATE_DATA_KEY dataParts = some (.mandate m))
    (hs : task.status.state = .inputRequired) :
    ∃ evs, initiate_payment env dataParts (some task) = some evs ∧
      (((applyEvents task evs).status.state = .completed) ↔
        challenge_response_of dataParts = "123") ∧
      (challenge_response_of dataParts = "123" →
          evs.filter isAddArtifactE =
            [.addArtifact [.data PAYMENT_RECEIPT_DATA_KEY
                (.receipt (create_payment_receipt env m))]] ∧
          (create_payment_receipt env m).paymentMandateId =
            m.paymentMandateContents.paymentMandateId ∧
          (create_payment_receipt env m).amount =
            m.paymentMandateContents.paymentDetailsTotal.amount) ∧
      (challenge_response_of dataParts ≠ "123" →
          (applyEvents task evs).status.state = .inputRequired ∧
          (applyEvents task evs).status.message =
            some [.text "Challenge response incorrect."] ∧
          evs.filter isAddArtifactE = [] ∧
          (applyEvents task evs).artifacts = task.artifacts) := by
  have hev : handle_payment_mandate env m (challenge_response_of dataParts) (some task) =
      check_challenge_response_and_complete_payment env m (challenge_response_of dataParts) := by
    simp [handle_payment_mandate, hs]
  refine ⟨handle_payment_mandate env m (challenge_response_of dataParts) (some task),
    ?_, ?_, ?_, ?_⟩
  · simp [initiate_payment, hm, truthyOptVal, truthyVal]
  · constructor
    · intro hstate
      by_contra hcr
      rw [hev] at hstate
      simp [check_challenge_response_and_complete_payment, challenge_response_is_valid,
        hcr, applyEvents, applyEvent] at hstate
    · intro hcr
      rw [hev]
      simp [check_challenge_response_and_complete_payment, challenge_response_is_valid,
        hcr, complete_payment, applyEvents, applyEvent]
  · intro hcr
    refine ⟨?_, rfl, rfl⟩
    rw [hev]
    simp [check_challenge_response_and_complete_payment, challenge_response_is_valid,
      hcr, complete_payment, isAddArtifactE]
  · intro hcr
    rw [hev]
    simp [check_challenge_response_and_complete_payment, challenge_response_is_valid,
      hcr, applyEvents, applyEvent, isAddArtifactE]

/-- Witness for C1: the concrete resumed task with response "123" completes. -/
theorem initiate_payment_challenge_resolution_witness :
    ∃ evs, initiate_payment ⟨"pid", "ts"⟩
        [(PAYMENT_MANDATE_DATA_KEY,
          DataVal.mandate ⟨⟨"pm_1", ⟨"Total", ⟨"JPY", 850⟩⟩, ⟨"CARD", "url"⟩⟩⟩),
         ("challenge_response", DataVal.str "123")]
        (some ⟨"t1", "ctx", ⟨.inputRequired, none⟩, [], []⟩) = some evs ∧
      (applyEvents ⟨"t1", "ctx", ⟨.inputRequired, none⟩, [], []⟩ evs).status.state =
        .completed := by
  obtain ⟨evs, h1, h2, h3, h4⟩ :=
    initiate_payment_challenge_resolution ⟨"pid", "ts"⟩
      [(PAYMENT_MANDATE_DATA_KEY,
        DataVal.mandate ⟨⟨"pm_1", ⟨"Total", ⟨"JPY", 850⟩⟩, ⟨"CARD", "url"⟩⟩⟩),
       ("challenge_response", DataVal.str "123")]
      ⟨⟨"pm_1", ⟨"Total", ⟨"JPY", 850⟩⟩, ⟨"CARD", "url"⟩⟩⟩
      ⟨"t1", "ctx", ⟨.inputRequired, none⟩, [], []⟩ (by decide) rfl
  exact ⟨evs, h1, h2.mpr (by decide)⟩

/-- Claim C10: with a payment mandate and an existing task in any state
other than input_required, the processor handler performs no status update
at all — no challenge, no completion, no failure — leaving the task's state,
message and artifacts exactly as they were. -/
theorem initiate_payment_frame_on_terminal_task (env : PayEnv)
    (dataParts : List (String × DataVal)) (m : PaymentMandate) (task : Task)
    (hm : find_data_part PAYMENT_MANDATE_DATA_KEY dataParts = some (.mandate m))
    (hs : task.status.state ≠ .inputRequired) :
    initiate_payment env dataParts (some task) = some [] ∧
    applyEvents task [] = task := by
  constructor
  · simp [initiate_payment, hm, truthyOptVal, truthyVal, handle_payment_mandate, hs]
  · rfl

/-- Witness for C10: a completed task is left untouched by a re-invocation. -/
theorem initiate_payment_frame_on_terminal_task_witness :
    initiate_payment ⟨"pid", "ts"⟩
        [(PAYMENT_MANDATE_DATA_KEY,
          DataVal.mandate ⟨⟨"pm_1", ⟨"Total", ⟨"JPY", 850⟩⟩, ⟨"CARD", "url"⟩⟩⟩)]
        (some ⟨"t1", "ctx", ⟨.completed, none⟩, [], []⟩) = some [] ∧
    applyEvents ⟨"t1", "ctx", ⟨.completed, none⟩, [], []⟩ [] =
      ⟨"t1", "ctx", ⟨.completed, none⟩, [], []⟩ :=
  initiate_payment_frame_on_terminal_task ⟨"pid", "ts"⟩
    [(PAYMENT_MANDATE_DATA_KEY,
      DataVal.mandate ⟨⟨"pm_1", ⟨"Total", ⟨"JPY", 850⟩⟩, ⟨"CARD", "url"⟩⟩⟩)]
    ⟨⟨"pm_1", ⟨"Total", ⟨"JPY", 850⟩⟩, ⟨"CARD", "url"⟩⟩⟩
    ⟨"t1", "ctx", ⟨.completed, none⟩, [], []⟩ (by decide) (by decide)

end AP2
